import Mathlib

/-!
Shallow embedding of the awwasm-parser WebAssembly binary decoder
(src/components/{section,types,instructions,module}.rs and src/consts.rs).

Bytes are modelled as natural numbers (values 0..255); byte slices as
List Nat.  Fallible nom parsers become functions
List Nat → Option (result × List Nat), where the second component is the
remaining input.  Mutating resolve methods become functions returning the
updated value.  A Rust panic (unwrap on Err/None) is modelled by a
dedicated RunResult.panicked outcome.
-/

namespace Awwasm

/-- Constant from src/consts.rs: the block/function terminator opcode 0x0b. -/
def WASM_FUNC_SECTION_OPCODE_END : Nat := 11

/-- Modelled from the spec: src/consts.rs in the packaged sources does not
contain WASM_FUNC_SECTION_OPCODE_THEN, which instructions.rs uses as the
else-marker sentinel of an If's then-region; spec section 6 fixes the else
sentinel byte to 0x05. -/
def WASM_FUNC_SECTION_OPCODE_THEN : Nat := 5

/-- Modelled from the spec: src/consts.rs in the packaged sources does not
contain WASM_INSTRUCTION_MEMORY_ZERO, the reserved single-byte immediate of
memory.size / memory.grow; modelled as the one zero byte of the wasm format
the spec's section 6 table describes. -/
def WASM_INSTRUCTION_MEMORY_ZERO : List Nat := [0]

/-- Constant from src/consts.rs: the 4-byte magic preamble literal b"\0asm". -/
def WASM_MAGIC_NUMBER : List Nat := [0, 97, 115, 109]

/-- Unsigned LEB128 decoding loop (nom_leb128::leb128_u32 / leb128_u64):
accumulate 7 bits per byte, little groups first, stop at the first byte with
the continuation bit (0x80) clear; fail on truncated input or when more than
budget bytes carry a continuation bit. -/
def leb128_uAux : List Nat → Nat → Nat → Nat → Option (Nat × List Nat)
  | [], _, _, _ => none
  | _ :: _, _, _, 0 => none
  | b :: rest, shift, acc, budget + 1 =>
    if b < 128 then some (acc + b * 2 ^ shift, rest)
    else leb128_uAux rest (shift + 7) (acc + b % 128 * 2 ^ shift) budget

/-- nom_leb128::leb128_u32: at most 5 groups; the value is a u32. -/
def leb128_u32 (i : List Nat) : Option (Nat × List Nat) :=
  (leb128_uAux i 0 0 5).map fun vr => (vr.1 % 2 ^ 32, vr.2)

/-- Signed LEB128 decoding loop (nom_leb128::leb128_i32 / leb128_i64):
like the unsigned loop, then sign-extend from the final group's bit 6. -/
def leb128_sAux : List Nat → Nat → Nat → Nat → Option (Int × List Nat)
  | [], _, _, _ => none
  | _ :: _, _, _, 0 => none
  | b :: rest, shift, acc, budget + 1 =>
    if b < 128 then
      let raw := acc + b * 2 ^ shift
      if 64 ≤ b then some ((raw : Int) - 2 ^ (shift + 7), rest)
      else some ((raw : Int), rest)
    else leb128_sAux rest (shift + 7) (acc + b % 128 * 2 ^ shift) budget

/-- nom_leb128::leb128_i32. -/
def leb128_i32 (i : List Nat) : Option (Int × List Nat) := leb128_sAux i 0 0 5

/-- nom_leb128::leb128_i64. -/
def leb128_i64 (i : List Nat) : Option (Int × List Nat) := leb128_sAux i 0 0 10

/-- Helper from src/components/section.rs: number of bytes an unsigned LEB128
encoding of a u32 value occupies (len = 1; while v >= 0x80 { v >>= 7;
len += 1 }).  The loop iterates at most 5 times for a u32, so a structural
fuel of 5 reproduces it exactly on every u32 input. -/
def leb128_len_u32Aux : Nat → Nat → Nat
  | 0, _ => 1
  | fuel + 1, v => if v < 128 then 1 else 1 + leb128_len_u32Aux fuel (v / 128)

/-- leb128_len_u32 from src/components/section.rs. -/
def leb128_len_u32 (v : Nat) : Nat := leb128_len_u32Aux 5 v

/-- nom: read one little-endian byte (le_u8); fails on empty input. -/
def parseByte : List Nat → Option (Nat × List Nat)
  | [] => none
  | b :: r => some (b, r)

/-- nom Take combinator: take exactly n raw bytes, failing when fewer remain. -/
def takeBytes (n : Nat) (i : List Nat) : Option (List Nat × List Nat) :=
  if n ≤ i.length then some (i.take n, i.drop n) else none

/-- nom tag combinator: match a literal byte sequence. -/
def parseTag (t : List Nat) (i : List Nat) : Option (List Nat × List Nat) :=
  if t.length ≤ i.length ∧ i.take t.length = t then some (t, i.drop t.length)
  else none

/-- nom multi::count combinator: run a parser exactly n times. -/
def countP {α : Type} (p : List Nat → Option (α × List Nat)) :
    Nat → List Nat → Option (List α × List Nat)
  | 0, i => some ([], i)
  | n + 1, i => do
    let (a, r1) ← p i
    let (l, r2) ← countP p n r1
    some (a :: l, r2)

/-- nom combinator::cond: run the parser only when the flag holds, otherwise
consume nothing and yield none for the value. -/
def condP {α : Type} (b : Bool) (p : List Nat → Option (α × List Nat))
    (i : List Nat) : Option (Option α × List Nat) :=
  if b then (p i).map fun x => (some x.1, x.2) else some (none, i)

/-- nom LengthCount combinator: a LEB128 length prefix followed by exactly
that many elements. -/
def parseLengthCount {α : Type} (p : List Nat → Option (α × List Nat))
    (i : List Nat) : Option (List α × List Nat) := do
  let (n, r1) ← leb128_u32 i
  countP p n r1

/-- Little-endian value of a byte list (used for the raw bits of f32/f64
constant immediates). -/
def bytesLE : List Nat → Nat
  | [] => 0
  | b :: r => b + 256 * bytesLE r

/-- SectionCode from src/components/section.rs (closed enumeration of the
seven modeled section kinds). -/
inductive SectionCode where
  | typeS
  | importS
  | functionS
  | memoryS
  | exportS
  | codeS
  | dataS
deriving DecidableEq

/-- The FromPrimitive/Nom byte mapping of SectionCode (1, 2, 3, 5, 7, 0x0a,
0x0b); any other byte is a decode failure. -/
def SectionCode.ofByte (b : Nat) : Option SectionCode :=
  if b = 1 then some .typeS
  else if b = 2 then some .importS
  else if b = 3 then some .functionS
  else if b = 5 then some .memoryS
  else if b = 7 then some .exportS
  else if b = 10 then some .codeS
  else if b = 11 then some .dataS
  else none

/-- AwwasmSectionHeader from src/components/section.rs. -/
structure AwwasmSectionHeader where
  section_type : SectionCode
  section_size : Nat
deriving DecidableEq

/-- AwwasmSection from src/components/section.rs. -/
structure AwwasmSection where
  section_header : AwwasmSectionHeader
  entry_count : Nat
  section_body : List Nat
deriving DecidableEq

/-- Nom derive for AwwasmSectionHeader: one SectionCode byte, then a LEB128
section size. -/
def parseSectionHeader (i : List Nat) : Option (AwwasmSectionHeader × List Nat) := do
  let (b, r1) ← parseByte i
  let st ← SectionCode.ofByte b
  let (sz, r2) ← leb128_u32 r1
  some ({ section_type := st, section_size := sz }, r2)

/-- Nom derive for AwwasmSection: header, LEB128 entry count, then Take of
section_size.checked_sub(leb128_len_u32(entry_count)).unwrap_or(0) bytes.
Nat subtraction is exactly the checked_sub/unwrap_or(0) saturation. -/
def parseSection (i : List Nat) : Option (AwwasmSection × List Nat) := do
  let (h, r1) ← parseSectionHeader i
  let (ec, r2) ← leb128_u32 r1
  let (body, r3) ← takeBytes (h.section_size - leb128_len_u32 ec) r2
  some ({ section_header := h, entry_count := ec, section_body := body }, r3)

/-- ParamType from src/components/types.rs. -/
inductive ParamType where
  | iunknown
  | i32
  | i64
deriving DecidableEq

/-- FromPrimitive/Nom byte mapping of ParamType (0x00, 0x7F, 0x7E). -/
def ParamType.ofByte (b : Nat) : Option ParamType :=
  if b = 0 then some .iunknown
  else if b = 127 then some .i32
  else if b = 126 then some .i64
  else none

/-- Nom enum parse of one ParamType byte. -/
def parseParamType (i : List Nat) : Option (ParamType × List Nat) := do
  let (b, r) ← parseByte i
  let t ← ParamType.ofByte b
  some (t, r)

/-- AwwasmTypeSectionItem from src/components/types.rs: 0x60 tag,
length-counted argument types, length-counted result types. -/
structure AwwasmTypeSectionItem where
  type_magic : List Nat
  fn_args : List ParamType
  fn_rets : List ParamType
deriving DecidableEq

/-- Nom derive for AwwasmTypeSectionItem. -/
def parseTypeSectionItem (i : List Nat) : Option (AwwasmTypeSectionItem × List Nat) := do
  let (m, r1) ← parseTag [96] i
  let (args, r2) ← parseLengthCount parseParamType r1
  let (rets, r3) ← parseLengthCount parseParamType r2
  some ({ type_magic := m, fn_args := args, fn_rets := rets }, r3)

/-- AwwasmFuncSectionItem from src/components/types.rs. -/
structure AwwasmFuncSectionItem where
  type_item_idx : Nat
deriving DecidableEq

/-- Nom derive for AwwasmFuncSectionItem: one LEB128 type index. -/
def parseFuncSectionItem (i : List Nat) : Option (AwwasmFuncSectionItem × List Nat) := do
  let (n, r1) ← leb128_u32 i
  some ({ type_item_idx := n }, r1)

/-- AwwasmFunctionLocals from src/components/types.rs. -/
structure AwwasmFunctionLocals where
  type_count : Nat
  param_type : ParamType
deriving DecidableEq

/-- Nom derive for AwwasmFunctionLocals: LEB128 repeat count, ParamType tag. -/
def parseFunctionLocals (i : List Nat) : Option (AwwasmFunctionLocals × List Nat) := do
  let (c, r1) ← leb128_u32 i
  let (t, r2) ← parseParamType r1
  some ({ type_count := c, param_type := t }, r2)

/-- AwwasmFunction from src/components/types.rs: length-counted locals, then
take_while(byte != WASM_FUNC_SECTION_OPCODE_END) raw instruction bytes. -/
structure AwwasmFunction where
  fn_rets : List AwwasmFunctionLocals
  code : List Nat
deriving DecidableEq

/-- The locals part of the AwwasmFunction derive (LengthCount of
AwwasmFunctionLocals). -/
def parseLocalsVec (i : List Nat) : Option (List AwwasmFunctionLocals × List Nat) :=
  parseLengthCount parseFunctionLocals i

/-- Nom derive for AwwasmFunction.  take_while never fails: the code field is
the longest prefix free of the terminator byte and the remaining input starts
at the first terminator (or is empty when no terminator occurs). -/
def parseAwwasmFunction (i : List Nat) : Option (AwwasmFunction × List Nat) := do
  let (ls, r1) ← parseLocalsVec i
  some ({ fn_rets := ls,
          code := r1.takeWhile fun b => b ≠ WASM_FUNC_SECTION_OPCODE_END },
        r1.dropWhile fun b => b ≠ WASM_FUNC_SECTION_OPCODE_END)

/-- AwwasmCodeSectionItem from src/components/types.rs. -/
structure AwwasmCodeSectionItem where
  fn_body_size : Nat
  func_body : List Nat
  parsed_func : Option AwwasmFunction
deriving DecidableEq

/-- Nom derive for AwwasmCodeSectionItem: LEB128 body size, Take of that many
bytes; parsed_func is Ignore (defaults to none). -/
def parseCodeSectionItem (i : List Nat) : Option (AwwasmCodeSectionItem × List Nat) := do
  let (sz, r1) ← leb128_u32 i
  let (body, r2) ← takeBytes sz r1
  some ({ fn_body_size := sz, func_body := body, parsed_func := none }, r2)

/-- AwwasmCodeSectionItem::resolve from src/components/types.rs:
(self.func_body, self.parsed_func) = cond(!self.func_body.is_empty(),
AwwasmFunction::parse)(self.func_body)?. -/
def AwwasmCodeSectionItem.resolve (e : AwwasmCodeSectionItem) :
    Option AwwasmCodeSectionItem :=
  match condP (e.func_body ≠ []) parseAwwasmFunction e.func_body with
  | none => none
  | some (pf, rest) => some { e with func_body := rest, parsed_func := pf }

/-- AwwasmMemoryParams from src/components/types.rs: LEB128 flags, LEB128 min,
and max present iff (flags & 0x1) != 0. -/
structure AwwasmMemoryParams where
  flags : Nat
  min : Nat
  max : Option Nat
deriving DecidableEq

/-- Nom derive for AwwasmMemoryParams. -/
def parseMemoryParams (i : List Nat) : Option (AwwasmMemoryParams × List Nat) := do
  let (flags, r1) ← leb128_u32 i
  let (mn, r2) ← leb128_u32 r1
  let (mx, r3) ← condP (flags &&& 1 ≠ 0) leb128_u32 r2
  some ({ flags := flags, min := mn, max := mx }, r3)

/-- AwwasmMemorySectionItem from src/components/types.rs. -/
structure AwwasmMemorySectionItem where
  limits : AwwasmMemoryParams
deriving DecidableEq

/-- Nom derive for AwwasmMemorySectionItem. -/
def parseMemorySectionItem (i : List Nat) : Option (AwwasmMemorySectionItem × List Nat) := do
  let (l, r) ← parseMemoryParams i
  some ({ limits := l }, r)

/-- AwwasmName from src/components/types.rs: LEB128 length then that many
raw bytes. -/
structure AwwasmName where
  len : Nat
  bytes : List Nat
deriving DecidableEq

/-- Nom derive for AwwasmName. -/
def parseName (i : List Nat) : Option (AwwasmName × List Nat) := do
  let (n, r1) ← leb128_u32 i
  let (bs, r2) ← takeBytes n r1
  some ({ len := n, bytes := bs }, r2)

/-- AwwasmImportKind from src/components/types.rs. -/
inductive AwwasmImportKind where
  | function
  | table
  | memory
  | global
deriving DecidableEq

/-- FromPrimitive/Nom byte mapping of AwwasmImportKind (0..3). -/
def AwwasmImportKind.ofByte (b : Nat) : Option AwwasmImportKind :=
  if b = 0 then some .function
  else if b = 1 then some .table
  else if b = 2 then some .memory
  else if b = 3 then some .global
  else none

/-- AwwasmImportSectionItem from src/components/types.rs: module name, item
name, kind byte; func_type_idx present iff kind == Function; mem present iff
kind == Memory. -/
structure AwwasmImportSectionItem where
  module : AwwasmName
  name : AwwasmName
  kind : AwwasmImportKind
  func_type_idx : Option Nat
  mem : Option AwwasmMemoryParams
deriving DecidableEq

/-- Nom derive for AwwasmImportSectionItem. -/
def parseImportSectionItem (i : List Nat) :
    Option (AwwasmImportSectionItem × List Nat) := do
  let (m, r1) ← parseName i
  let (n, r2) ← parseName r1
  let (kb, r3) ← parseByte r2
  let k ← AwwasmImportKind.ofByte kb
  let (fti, r4) ← condP (k = .function) leb128_u32 r3
  let (mem, r5) ← condP (k = .memory) parseMemoryParams r4
  some ({ module := m, name := n, kind := k, func_type_idx := fti, mem := mem }, r5)

/-- AwwasmExportKind from src/components/types.rs. -/
inductive AwwasmExportKind where
  | function
  | table
  | memory
  | global
deriving DecidableEq

/-- FromPrimitive/Nom byte mapping of AwwasmExportKind (0..3). -/
def AwwasmExportKind.ofByte (b : Nat) : Option AwwasmExportKind :=
  if b = 0 then some .function
  else if b = 1 then some .table
  else if b = 2 then some .memory
  else if b = 3 then some .global
  else none

/-- AwwasmExportSectionItem from src/components/types.rs. -/
structure AwwasmExportSectionItem where
  name : AwwasmName
  kind : AwwasmExportKind
  index : Nat
deriving DecidableEq

/-- Nom derive for AwwasmExportSectionItem: name, kind byte, LEB128 index. -/
def parseExportSectionItem (i : List Nat) :
    Option (AwwasmExportSectionItem × List Nat) := do
  let (n, r1) ← parseName i
  let (kb, r2) ← parseByte r1
  let k ← AwwasmExportKind.ofByte kb
  let (idx, r3) ← leb128_u32 r2
  some ({ name := n, kind := k, index := idx }, r3)

/-- AwwasmDataInitExpr from src/components/types.rs: take_while(byte != end
terminator) raw code, then one le_u8 end byte. -/
structure AwwasmDataInitExpr where
  code : List Nat
  end_byte : Nat
deriving DecidableEq

/-- Nom derive for AwwasmDataInitExpr. -/
def parseDataInitExpr (i : List Nat) : Option (AwwasmDataInitExpr × List Nat) := do
  let c := i.takeWhile fun b => b ≠ WASM_FUNC_SECTION_OPCODE_END
  let (e, r) ← parseByte (i.dropWhile fun b => b ≠ WASM_FUNC_SECTION_OPCODE_END)
  some ({ code := c, end_byte := e }, r)

/-- AwwasmDataSegmentHeader from src/components/types.rs: LEB128 flags, memidx
present iff flags == 2, offset initializer present iff flags == 0 or 2. -/
structure AwwasmDataSegmentHeader where
  flags : Nat
  memidx : Option Nat
  offset : Option AwwasmDataInitExpr
deriving DecidableEq

/-- Nom derive for AwwasmDataSegmentHeader. -/
def parseDataSegmentHeader (i : List Nat) :
    Option (AwwasmDataSegmentHeader × List Nat) := do
  let (flags, r1) ← leb128_u32 i
  let (mi, r2) ← condP (flags = 2) leb128_u32 r1
  let (off, r3) ← condP (flags = 0 ∨ flags = 2) parseDataInitExpr r2
  some ({ flags := flags, memidx := mi, offset := off }, r3)

/-- AwwasmDataSectionItem from src/components/types.rs: header, LEB128 size,
then that many raw bytes. -/
structure AwwasmDataSectionItem where
  header : AwwasmDataSegmentHeader
  size : Nat
  data_bytes : List Nat
deriving DecidableEq

/-- Nom derive for AwwasmDataSectionItem. -/
def parseDataSectionItem (i : List Nat) :
    Option (AwwasmDataSectionItem × List Nat) := do
  let (h, r1) ← parseDataSegmentHeader i
  let (sz, r2) ← leb128_u32 r1
  let (bs, r3) ← takeBytes sz r2
  some ({ header := h, size := sz, data_bytes := bs }, r3)

/-- SectionItem from src/components/section.rs. -/
inductive SectionItem where
  | typeItems : Option (List AwwasmTypeSectionItem) → SectionItem
  | importItems : Option (List AwwasmImportSectionItem) → SectionItem
  | functionItems : Option (List AwwasmFuncSectionItem) → SectionItem
  | codeItems : Option (List AwwasmCodeSectionItem) → SectionItem
  | memoryItems : Option (List AwwasmMemorySectionItem) → SectionItem
  | exportItems : Option (List AwwasmExportSectionItem) → SectionItem
  | dataItems : Option (List AwwasmDataSectionItem) → SectionItem
deriving DecidableEq

/-- The body-resolution pattern shared by every branch of
AwwasmSection::resolve: (self.section_body, items) =
cond(!self.section_body.is_empty(), count(parse, entry_count))(body)?.
Returns the updated body (leftover bytes) and the optional item list. -/
def resolveBody {α : Type} (p : List Nat → Option (α × List Nat)) (n : Nat)
    (body : List Nat) : Option (List Nat × Option (List α)) :=
  if body = [] then some (body, none)
  else (countP p n body).map fun lr => (lr.2, some lr.1)

/-- AwwasmSection::resolve from src/components/section.rs.  The returned
section carries the updated section_body; none models the Err case. -/
def AwwasmSection.resolve (s : AwwasmSection) :
    Option (AwwasmSection × SectionItem) :=
  match s.section_header.section_type with
  | .typeS =>
    (resolveBody parseTypeSectionItem s.entry_count s.section_body).map
      fun rl => ({ s with section_body := rl.1 }, .typeItems rl.2)
  | .importS =>
    (resolveBody parseImportSectionItem s.entry_count s.section_body).map
      fun rl => ({ s with section_body := rl.1 }, .importItems rl.2)
  | .functionS =>
    (resolveBody parseFuncSectionItem s.entry_count s.section_body).map
      fun rl => ({ s with section_body := rl.1 }, .functionItems rl.2)
  | .codeS =>
    (resolveBody parseCodeSectionItem s.entry_count s.section_body).map
      fun rl => ({ s with section_body := rl.1 }, .codeItems rl.2)
  | .memoryS =>
    (resolveBody parseMemorySectionItem s.entry_count s.section_body).map
      fun rl => ({ s with section_body := rl.1 }, .memoryItems rl.2)
  | .exportS =>
    (resolveBody parseExportSectionItem s.entry_count s.section_body).map
      fun rl => ({ s with section_body := rl.1 }, .exportItems rl.2)
  | .dataS =>
    (resolveBody parseDataSectionItem s.entry_count s.section_body).map
      fun rl => ({ s with section_body := rl.1 }, .dataItems rl.2)

/-- Number of entries carried by a SectionItem (none when the item list is
the unresolved None). -/
def SectionItem.entryLen : SectionItem → Option Nat
  | .typeItems l => l.map List.length
  | .importItems l => l.map List.length
  | .functionItems l => l.map List.length
  | .codeItems l => l.map List.length
  | .memoryItems l => l.map List.length
  | .exportItems l => l.map List.length
  | .dataItems l => l.map List.length

/-- BlockValueType from src/components/instructions.rs. -/
inductive BlockValueType where
  | void
  | i32
  | i64
  | f32
  | f64
deriving DecidableEq

/-- Nom byte mapping of BlockValueType (0x40, 0x7F, 0x7E, 0x7D, 0x7C). -/
def BlockValueType.ofByte (b : Nat) : Option BlockValueType :=
  if b = 64 then some .void
  else if b = 127 then some .i32
  else if b = 126 then some .i64
  else if b = 125 then some .f32
  else if b = 124 then some .f64
  else none

/-- Nom enum parse of one BlockValueType byte. -/
def parseBlockValueType (i : List Nat) : Option (BlockValueType × List Nat) := do
  let (b, r) ← parseByte i
  let t ← BlockValueType.ofByte b
  some (t, r)

/-- BrTableOperands from src/components/instructions.rs. -/
structure BrTableOperands where
  target_count : Nat
  targets : List Nat
  default : Nat
deriving DecidableEq

/-- nom number::complete::le_u32: four raw bytes read as a little-endian
u32, failing when fewer than four remain.  This is the default parser
nom_derive selects for a u32 field under LittleEndian when the field carries
no Parse attribute. -/
def le_u32 (i : List Nat) : Option (Nat × List Nat) :=
  (takeBytes 4 i).map fun br => (bytesLE br.1, br.2)

/-- Nom derive for BrTableOperands: LEB128 target count (explicit
Parse = leb128_u32), then Count = target_count over the targets field —
which has no Parse attribute, so each table target is read by u32's default
little-endian parser le_u32 as 4 fixed bytes, not as a varint — then one
LEB128 default target (explicit Parse = leb128_u32). -/
def parseBrTableOperands (i : List Nat) : Option (BrTableOperands × List Nat) := do
  let (c, r1) ← leb128_u32 i
  let (ts, r2) ← countP le_u32 c r1
  let (d, r3) ← leb128_u32 r2
  some ({ target_count := c, targets := ts, default := d }, r3)

/-- AwwasmInstruction / AwwasmOperands from src/components/instructions.rs:
a tagged union keyed by the opcode byte.  The three recursive control
constructs carry nested instruction lists; the If constructor also records
which sentinel byte terminated its then-region (then_body.1 in the source),
since that byte selects whether an else-body follows. -/
inductive AwwasmInstruction where
  | block (block_type : BlockValueType) (body : List AwwasmInstruction)
  | loopI (block_type : BlockValueType) (body : List AwwasmInstruction)
  | ifI (block_type : BlockValueType) (then_body : List AwwasmInstruction)
      (then_sentinel : Nat) (else_body : Option (List AwwasmInstruction))
  | br (labelidx : Nat)
  | brIf (labelidx : Nat)
  | brTable (ops : BrTableOperands)
  | ret
  | call (funcidx : Nat)
  | callIndirect (typeidx tableidx : Nat)
  | localGet (index : Nat)
  | localSet (index : Nat)
  | localTee (index : Nat)
  | globalGet (index : Nat)
  | globalSet (index : Nat)
  | i32Load (align offset : Nat)
  | i64Load (align offset : Nat)
  | i32Store (align offset : Nat)
  | i64Store (align offset : Nat)
  | memorySize
  | memoryGrow
  | i32Const (value : Int)
  | i64Const (value : Int)
  | f32Const (bits : Nat)
  | f64Const (bits : Nat)
  | i32Eqz
  | i32Eq
  | i32Ne
  | i32Add
  | i32Sub
  | i32Mul

mutual

/-- AwwasmInstruction::parse from src/components/instructions.rs: one opcode
byte, then the operand shape selected solely by that byte; an unmodeled byte
(including the bare Else 0x05 and End 0x0b opcodes, which have no operand
variant) is a decode failure.  The fuel argument bounds the recursion depth;
every recursive step consumes at least one byte first, so any fuel of at
least input length + 1 reproduces the source's unbounded recursion. -/
def decodeInstr : Nat → List Nat → Option (AwwasmInstruction × List Nat)
  | 0, _ => none
  | _ + 1, [] => none
  | fuel + 1, b :: r =>
    match b with
    | 2 => do
      let (bt, r1) ← parseBlockValueType r
      let (bodyEnd, r2) ← manyTillSents [WASM_FUNC_SECTION_OPCODE_END] fuel r1
      some (.block bt bodyEnd.1, r2)
    | 3 => do
      let (bt, r1) ← parseBlockValueType r
      let (bodyEnd, r2) ← manyTillSents [WASM_FUNC_SECTION_OPCODE_END] fuel r1
      some (.loopI bt bodyEnd.1, r2)
    | 4 => do
      let (bt, r1) ← parseBlockValueType r
      let (thenEnd, r2) ←
        manyTillSents [WASM_FUNC_SECTION_OPCODE_END, WASM_FUNC_SECTION_OPCODE_THEN] fuel r1
      if thenEnd.2 = WASM_FUNC_SECTION_OPCODE_THEN then do
        let (elseEnd, r3) ← manyTillSents [WASM_FUNC_SECTION_OPCODE_END] fuel r2
        some (.ifI bt thenEnd.1 thenEnd.2 (some elseEnd.1), r3)
      else
        some (.ifI bt thenEnd.1 thenEnd.2 none, r2)
    | 12 => (leb128_u32 r).map fun vr => (.br vr.1, vr.2)
    | 13 => (leb128_u32 r).map fun vr => (.brIf vr.1, vr.2)
    | 14 => (parseBrTableOperands r).map fun vr => (.brTable vr.1, vr.2)
    | 15 => some (.ret, r)
    | 16 => (leb128_u32 r).map fun vr => (.call vr.1, vr.2)
    | 17 => do
      let (t, r1) ← leb128_u32 r
      let (tb, r2) ← leb128_u32 r1
      some (.callIndirect t tb, r2)
    | 32 => (leb128_u32 r).map fun vr => (.localGet vr.1, vr.2)
    | 33 => (leb128_u32 r).map fun vr => (.localSet vr.1, vr.2)
    | 34 => (leb128_u32 r).map fun vr => (.localTee vr.1, vr.2)
    | 35 => (leb128_u32 r).map fun vr => (.globalGet vr.1, vr.2)
    | 36 => (leb128_u32 r).map fun vr => (.globalSet vr.1, vr.2)
    | 40 => do
      let (a, r1) ← leb128_u32 r
      let (o, r2) ← leb128_u32 r1
      some (.i32Load a o, r2)
    | 41 => do
      let (a, r1) ← leb128_u32 r
      let (o, r2) ← leb128_u32 r1
      some (.i64Load a o, r2)
    | 54 => do
      let (a, r1) ← leb128_u32 r
      let (o, r2) ← leb128_u32 r1
      some (.i32Store a o, r2)
    | 55 => do
      let (a, r1) ← leb128_u32 r
      let (o, r2) ← leb128_u32 r1
      some (.i64Store a o, r2)
    | 63 => (parseTag WASM_INSTRUCTION_MEMORY_ZERO r).map fun vr => (.memorySize, vr.2)
    | 64 => (parseTag WASM_INSTRUCTION_MEMORY_ZERO r).map fun vr => (.memoryGrow, vr.2)
    | 65 => (leb128_i32 r).map fun vr => (.i32Const vr.1, vr.2)
    | 66 => (leb128_i64 r).map fun vr => (.i64Const vr.1, vr.2)
    | 67 => (takeBytes 4 r).map fun vr => (.f32Const (bytesLE vr.1), vr.2)
    | 68 => (takeBytes 8 r).map fun vr => (.f64Const (bytesLE vr.1), vr.2)
    | 69 => some (.i32Eqz, r)
    | 70 => some (.i32Eq, r)
    | 71 => some (.i32Ne, r)
    | 106 => some (.i32Add, r)
    | 107 => some (.i32Sub, r)
    | 108 => some (.i32Mul, r)
    | _ => none

/-- nom multi::many_till(AwwasmInstruction::parse, tag-alternative over the
sentinel bytes): at each step the sentinel tags are tried first (in the
source, tag(END) or alt((tag(END), tag(THEN)))); when one matches it is
consumed and returned with the accumulated instructions, otherwise one
instruction is parsed and the loop continues. -/
def manyTillSents : List Nat → Nat → List Nat →
    Option ((List AwwasmInstruction × Nat) × List Nat)
  | _, 0, _ => none
  | _, _ + 1, [] => none
  | sents, fuel + 1, b :: r =>
    if sents.contains b then some (([], b), r)
    else do
      let (ins, r1) ← decodeInstr fuel (b :: r)
      let (ls, r2) ← manyTillSents sents fuel r1
      some ((ins :: ls.1, ls.2), r2)

end

/-- One yielded element of the lazy instruction iterator: a decoded
instruction or the single terminal decode failure. -/
inductive IterResult where
  | ok (ins : AwwasmInstruction)
  | err

/-- InstructionIterator::next from src/components/instructions.rs, as a step
function on the remaining-bytes state: none when the buffer is exhausted;
on a successful decode, yield the instruction and advance; on a decode
failure, yield the error and clear the buffer so every later pull is none.
The fuel remaining.length + 1 is enough for any input, since each recursive
step of the decoder consumes at least one byte first. -/
def instrIterNext (remaining : List Nat) : Option (IterResult × List Nat) :=
  if remaining = [] then none
  else
    match decodeInstr (remaining.length + 1) remaining with
    | some (ins, rest) => some (.ok ins, rest)
    | none => some (.err, [])

/-- AwwasmModulePreamble from src/components/module.rs. -/
structure AwwasmModulePreamble where
  magic : List Nat
  version : Nat
deriving DecidableEq

/-- Nom derive for AwwasmModulePreamble: 4-byte magic tag, little-endian
u32 version. -/
def parseModulePreamble (i : List Nat) : Option (AwwasmModulePreamble × List Nat) := do
  let (m, r1) ← parseTag WASM_MAGIC_NUMBER i
  let (vb, r2) ← takeBytes 4 r1
  some ({ magic := m, version := bytesLE vb }, r2)

/-- AwwasmModule from src/components/module.rs. -/
structure AwwasmModule where
  preamble : AwwasmModulePreamble
  sections : Option (List AwwasmSection)
  types : Option (List AwwasmTypeSectionItem)
  imports : Option (List AwwasmImportSectionItem)
  exports : Option (List AwwasmExportSectionItem)
  funcs : Option (List AwwasmFuncSectionItem)
  code : Option (List AwwasmCodeSectionItem)
  memories : Option (List AwwasmMemorySectionItem)
  data : Option (List AwwasmDataSectionItem)
deriving DecidableEq

/-- nom multi::many1(AwwasmSection::parse): one or more sections, stopping
(successfully) at the first failing position; fails when the first parse
already fails.  Each section consumes at least one byte, so fuel = input
length covers every input. -/
def many1Sections : Nat → List Nat → Option (List AwwasmSection × List Nat)
  | 0, _ => none
  | fuel + 1, i =>
    match parseSection i with
    | none => none
    | some (s, r) =>
      match many1Sections fuel r with
      | none => some ([s], r)
      | some (l, r') => some (s :: l, r')

/-- AwwasmModule::parse from src/components/module.rs: preamble, then
cond(!input.is_empty(), many1(AwwasmSection::parse)). -/
def parseModule (i : List Nat) : Option (AwwasmModule × List Nat) := do
  let (p, r1) ← parseModulePreamble i
  let (secs, r2) ← condP (r1 ≠ []) (fun j => many1Sections (j.length + 1) j) r1
  some ({ preamble := p, sections := secs, types := none, imports := none,
          exports := none, funcs := none, code := none, memories := none,
          data := none }, r2)

/-- Outcome of running a Rust function that can panic: a normal return or a
panic (unwrap on a None/Err value). -/
inductive RunResult (α : Type) where
  | ok (value : α)
  | panicked
deriving DecidableEq

/-- The match arm of resolve_all_sections that stores a resolved item list
into the module's typed field. -/
def applyItem (m : AwwasmModule) : SectionItem → AwwasmModule
  | .typeItems x => { m with types := x }
  | .importItems x => { m with imports := x }
  | .exportItems x => { m with exports := x }
  | .functionItems x => { m with funcs := x }
  | .codeItems x => { m with code := x }
  | .memoryItems x => { m with memories := x }
  | .dataItems x => { m with data := x }

/-- The for_each loop of resolve_all_sections: each section is resolved in
place (items.unwrap() panics when resolve returned Err) and its item list is
stored into the module. -/
def resolveSectionsGo (m : AwwasmModule) (done : List AwwasmSection) :
    List AwwasmSection → RunResult AwwasmModule
  | [] => .ok { m with sections := some done.reverse }
  | s :: rest =>
    match s.resolve with
    | none => .panicked
    | some (s', it) => resolveSectionsGo (applyItem m it) (s' :: done) rest

/-- AwwasmModule::resolve_all_sections from src/components/module.rs:
self.sections.as_mut().unwrap() (panics when sections is None), then the
for_each loop above.  On the source's success path the Rust function returns
Ok(()); a section whose resolve fails hits items.unwrap() and panics, so no
error value is ever returned. -/
def AwwasmModule.resolve_all_sections (m : AwwasmModule) : RunResult AwwasmModule :=
  match m.sections with
  | none => .panicked
  | some secs => resolveSectionsGo m [] secs

/-- Number of bytes in a buffer with the LEB128 continuation bit clear.  In a
well-formed varint sequence every encoded integer contains exactly one such
byte (its last), so this counts how many varints a consumed region holds. -/
def countLow (l : List Nat) : Nat := (l.filter fun b => b < 128).length

/-- A parser only ever hands back a suffix of its input as the remaining
bytes (it consumes a prefix and never fabricates input). -/
def ConsumesPrefix {α : Type} (p : List Nat → Option (α × List Nat)) : Prop :=
  ∀ i a r, p i = some (a, r) → r <:+ i

theorem some_mk_inv {α β : Type} {x a : α} {y b : β}
    (h : (some (x, y) : Option (α × β)) = some (a, b)) : x = a ∧ y = b := by
  cases Option.some.inj h
  exact ⟨rfl, rfl⟩

theorem countLow_cons (b : Nat) (l : List Nat) :
    countLow (b :: l) = (if b < 128 then 1 else 0) + countLow l := by
  by_cases hb : b < 128 <;> simp [countLow, List.filter_cons, hb, Nat.add_comm]

theorem countLow_append (a b : List Nat) :
    countLow (a ++ b) = countLow a + countLow b := by
  simp [countLow, List.filter_append]

theorem takeBytes_eq_some {n : Nat} {i l r : List Nat}
    (h : takeBytes n i = some (l, r)) : l.length = n ∧ l ++ r = i := by
  unfold takeBytes at h
  by_cases hn : n ≤ i.length
  · rw [if_pos hn] at h
    obtain ⟨h1, h2⟩ := some_mk_inv h
    subst h1
    subst h2
    refine ⟨?_, List.take_append_drop n i⟩
    simp only [List.length_take]
    omega
  · rw [if_neg hn] at h
    exact absurd h (by simp)

theorem takeBytes_suffix (n : Nat) : ConsumesPrefix (takeBytes n) := by
  intro i a r h
  obtain ⟨-, h2⟩ := takeBytes_eq_some h
  exact ⟨a, h2⟩

theorem parseByte_eq_some {i : List Nat} {b : Nat} {r : List Nat}
    (h : parseByte i = some (b, r)) : i = b :: r := by
  cases i with
  | nil => simp [parseByte] at h
  | cons x t =>
    obtain ⟨h1, h2⟩ := some_mk_inv h
    rw [h1, h2]

theorem parseByte_suffix : ConsumesPrefix parseByte := by
  intro i a r h
  rw [parseByte_eq_some h]
  exact ⟨[a], rfl⟩

theorem parseTag_suffix (t : List Nat) : ConsumesPrefix (parseTag t) := by
  intro i a r h
  unfold parseTag at h
  by_cases hc : t.length ≤ i.length ∧ i.take t.length = t
  · rw [if_pos hc] at h
    obtain ⟨-, h2⟩ := some_mk_inv h
    subst h2
    exact List.drop_suffix _ _
  · rw [if_neg hc] at h
    exact absurd h (by simp)

theorem leb128_uAux_consumed :
    ∀ (i : List Nat) (shift acc bud : Nat) (v : Nat) (r : List Nat),
      leb128_uAux i shift acc bud = some (v, r) →
      ∃ pre, pre ++ r = i ∧ countLow pre = 1 := by
  intro i
  induction i with
  | nil => intro shift acc bud v r h; simp [leb128_uAux] at h
  | cons b t ih =>
    intro shift acc bud v r h
    cases bud with
    | zero => simp [leb128_uAux] at h
    | succ bud' =>
      unfold leb128_uAux at h
      by_cases hb : b < 128
      · rw [if_pos hb] at h
        obtain ⟨-, h2⟩ := some_mk_inv h
        subst h2
        exact ⟨[b], rfl, by simp [countLow_cons, hb, countLow]⟩
      · rw [if_neg hb] at h
        obtain ⟨pre, hpre, hcl⟩ := ih _ _ _ _ _ h
        refine ⟨b :: pre, by simp [hpre], ?_⟩
        rw [countLow_cons, if_neg hb, hcl]

theorem leb128_u32_consumed {i : List Nat} {v : Nat} {r : List Nat}
    (h : leb128_u32 i = some (v, r)) :
    ∃ pre, pre ++ r = i ∧ countLow pre = 1 := by
  unfold leb128_u32 at h
  obtain ⟨⟨w, rw⟩, hy, hmap⟩ := Option.map_eq_some'.mp h
  obtain ⟨-, h2⟩ := some_mk_inv (congrArg some hmap)
  subst h2
  exact leb128_uAux_consumed i 0 0 5 w rw hy

theorem leb128_u32_suffix : ConsumesPrefix leb128_u32 := by
  intro i a r h
  obtain ⟨pre, hp, -⟩ := leb128_u32_consumed h
  exact ⟨pre, hp⟩

theorem countP_length {α : Type} {p : List Nat → Option (α × List Nat)} :
    ∀ {n : Nat} {i : List Nat} {l : List α} {r : List Nat},
      countP p n i = some (l, r) → l.length = n := by
  intro n
  induction n with
  | zero =>
    intro i l r h
    obtain ⟨h1, -⟩ := some_mk_inv h
    rw [← h1]
    rfl
  | succ n ih =>
    intro i l r h
    obtain ⟨⟨a, r1⟩, -, h2⟩ := Option.bind_eq_some.mp h
    obtain ⟨⟨l2, r2⟩, h3, h4⟩ := Option.bind_eq_some.mp h2
    obtain ⟨h5, -⟩ := some_mk_inv h4
    rw [← h5]
    simp [ih h3]

theorem countP_suffix {α : Type} {p : List Nat → Option (α × List Nat)}
    (hp : ConsumesPrefix p) : ∀ (n : Nat), ConsumesPrefix (countP p n) := by
  intro n
  induction n with
  | zero =>
    intro i l r h
    obtain ⟨-, h2⟩ := some_mk_inv h
    rw [← h2]
  | succ n ih =>
    intro i l r h
    obtain ⟨⟨a, r1⟩, h1, h2⟩ := Option.bind_eq_some.mp h
    obtain ⟨⟨l2, r2⟩, h3, h4⟩ := Option.bind_eq_some.mp h2
    obtain ⟨-, h5⟩ := some_mk_inv h4
    rw [← h5]
    exact (ih r1 l2 r2 h3).trans (hp i a r1 h1)

theorem countP_leb_consumed :
    ∀ {n : Nat} {i : List Nat} {l : List Nat} {r : List Nat},
      countP leb128_u32 n i = some (l, r) →
      ∃ pre, pre ++ r = i ∧ countLow pre = n := by
  intro n
  induction n with
  | zero =>
    intro i l r h
    obtain ⟨-, h2⟩ := some_mk_inv h
    exact ⟨[], by simp [h2], rfl⟩
  | succ n ih =>
    intro i l r h
    obtain ⟨⟨a, r1⟩, h1, h2⟩ := Option.bind_eq_some.mp h
    obtain ⟨⟨l2, r2⟩, h3, h4⟩ := Option.bind_eq_some.mp h2
    obtain ⟨-, h5⟩ := some_mk_inv h4
    subst h5
    obtain ⟨pre1, hc1, hl1⟩ := leb128_u32_consumed h1
    obtain ⟨pre2, hc2, hl2⟩ := ih h3
    refine ⟨pre1 ++ pre2, ?_, ?_⟩
    · rw [List.append_assoc, hc2, hc1]
    · rw [countLow_append, hl1, hl2, Nat.add_comm]

theorem condP_suffix {α : Type} {b : Bool} {p : List Nat → Option (α × List Nat)}
    (hp : ConsumesPrefix p) : ConsumesPrefix (condP b p) := by
  intro i a r h
  cases b with
  | false =>
    simp [condP] at h
    obtain ⟨-, h2⟩ := h
    rw [← h2]
  | true =>
    simp only [condP, if_pos] at h
    obtain ⟨⟨v, rr⟩, hv, hmap⟩ := Option.map_eq_some'.mp h
    cases hmap
    exact hp i v rr hv

theorem parseParamType_suffix : ConsumesPrefix parseParamType := by
  intro i a r h
  unfold parseParamType at h
  obtain ⟨⟨b, r1⟩, h1, h2⟩ := Option.bind_eq_some.mp h
  obtain ⟨t, -, h3⟩ := Option.bind_eq_some.mp h2
  obtain ⟨-, h4⟩ := some_mk_inv h3
  subst h4
  exact parseByte_suffix i b r1 h1

theorem parseLengthCount_suffix {α : Type} {p : List Nat → Option (α × List Nat)}
    (hp : ConsumesPrefix p) : ConsumesPrefix (parseLengthCount p) := by
  intro i a r h
  unfold parseLengthCount at h
  obtain ⟨⟨n, r1⟩, h1, h2⟩ := Option.bind_eq_some.mp h
  exact (countP_suffix hp n r1 a r h2).trans (leb128_u32_suffix i n r1 h1)

theorem parseTypeSectionItem_suffix : ConsumesPrefix parseTypeSectionItem := by
  intro i a r h
  unfold parseTypeSectionItem at h
  obtain ⟨⟨m, r1⟩, h1, h2⟩ := Option.bind_eq_some.mp h
  obtain ⟨⟨args, r2⟩, h3, h4⟩ := Option.bind_eq_some.mp h2
  obtain ⟨⟨rets, r3⟩, h5, h6⟩ := Option.bind_eq_some.mp h4
  obtain ⟨-, h7⟩ := some_mk_inv h6
  subst h7
  exact ((parseLengthCount_suffix parseParamType_suffix r2 rets r3 h5).trans
    (parseLengthCount_suffix parseParamType_suffix r1 args r2 h3)).trans
    (parseTag_suffix [96] i m r1 h1)

theorem parseFuncSectionItem_suffix : ConsumesPrefix parseFuncSectionItem := by
  intro i a r h
  unfold parseFuncSectionItem at h
  obtain ⟨⟨n, r1⟩, h1, h2⟩ := Option.bind_eq_some.mp h
  obtain ⟨-, h3⟩ := some_mk_inv h2
  subst h3
  exact leb128_u32_suffix i n r1 h1

theorem parseCodeSectionItem_suffix : ConsumesPrefix parseCodeSectionItem := by
  intro i a r h
  unfold parseCodeSectionItem at h
  obtain ⟨⟨sz, r1⟩, h1, h2⟩ := Option.bind_eq_some.mp h
  obtain ⟨⟨body, r2⟩, h3, h4⟩ := Option.bind_eq_some.mp h2
  obtain ⟨-, h5⟩ := some_mk_inv h4
  subst h5
  exact (takeBytes_suffix sz r1 body r2 h3).trans (leb128_u32_suffix i sz r1 h1)

theorem parseMemoryParams_suffix : ConsumesPrefix parseMemoryParams := by
  intro i a r h
  unfold parseMemoryParams at h
  obtain ⟨⟨fl, r1⟩, h1, h2⟩ := Option.bind_eq_some.mp h
  obtain ⟨⟨mn, r2⟩, h3, h4⟩ := Option.bind_eq_some.mp h2
  obtain ⟨⟨mx, r3⟩, h5, h6⟩ := Option.bind_eq_some.mp h4
  obtain ⟨-, h7⟩ := some_mk_inv h6
  subst h7
  exact ((condP_suffix leb128_u32_suffix r2 mx r3 h5).trans
    (leb128_u32_suffix r1 mn r2 h3)).trans (leb128_u32_suffix i fl r1 h1)

theorem parseMemorySectionItem_suffix : ConsumesPrefix parseMemorySectionItem := by
  intro i a r h
  unfold parseMemorySectionItem at h
  obtain ⟨⟨l, r1⟩, h1, h2⟩ := Option.bind_eq_some.mp h
  obtain ⟨-, h3⟩ := some_mk_inv h2
  subst h3
  exact parseMemoryParams_suffix i l r1 h1

theorem parseName_suffix : ConsumesPrefix parseName := by
  intro i a r h
  unfold parseName at h
  obtain ⟨⟨n, r1⟩, h1, h2⟩ := Option.bind_eq_some.mp h
  obtain ⟨⟨bs, r2⟩, h3, h4⟩ := Option.bind_eq_some.mp h2
  obtain ⟨-, h5⟩ := some_mk_inv h4
  subst h5
  exact (takeBytes_suffix n r1 bs r2 h3).trans (leb128_u32_suffix i n r1 h1)

theorem parseImportSectionItem_suffix : ConsumesPrefix parseImportSectionItem := by
  intro i a r h
  unfold parseImportSectionItem at h
  obtain ⟨⟨m, r1⟩, h1, h2⟩ := Option.bind_eq_some.mp h
  obtain ⟨⟨n, r2⟩, h3, h4⟩ := Option.bind_eq_some.mp h2
  obtain ⟨⟨kb, r3⟩, h5, h6⟩ := Option.bind_eq_some.mp h4
  obtain ⟨k, -, h7⟩ := Option.bind_eq_some.mp h6
  obtain ⟨⟨fti, r4⟩, h8, h9⟩ := Option.bind_eq_some.mp h7
  obtain ⟨⟨mem, r5⟩, h10, h11⟩ := Option.bind_eq_some.mp h9
  obtain ⟨-, h12⟩ := some_mk_inv h11
  subst h12
  exact ((((condP_suffix parseMemoryParams_suffix r4 mem r5 h10).trans
    (condP_suffix leb128_u32_suffix r3 fti r4 h8)).trans
    (parseByte_suffix r2 kb r3 h5)).trans
    (parseName_suffix r1 n r2 h3)).trans (parseName_suffix i m r1 h1)

theorem parseExportSectionItem_suffix : ConsumesPrefix parseExportSectionItem := by
  intro i a r h
  unfold parseExportSectionItem at h
  obtain ⟨⟨n, r1⟩, h1, h2⟩ := Option.bind_eq_some.mp h
  obtain ⟨⟨kb, r2⟩, h3, h4⟩ := Option.bind_eq_some.mp h2
  obtain ⟨k, -, h5⟩ := Option.bind_eq_some.mp h4
  obtain ⟨⟨idx, r3⟩, h6, h7⟩ := Option.bind_eq_some.mp h5
  obtain ⟨-, h8⟩ := some_mk_inv h7
  subst h8
  exact ((leb128_u32_suffix r2 idx r3 h6).trans
    (parseByte_suffix r1 kb r2 h3)).trans (parseName_suffix i n r1 h1)

theorem parseDataInitExpr_suffix : ConsumesPrefix parseDataInitExpr := by
  intro i a r h
  unfold parseDataInitExpr at h
  obtain ⟨⟨e, r1⟩, h1, h2⟩ := Option.bind_eq_some.mp h
  obtain ⟨-, h3⟩ := some_mk_inv h2
  subst h3
  exact (parseByte_suffix _ e r1 h1).trans (List.dropWhile_suffix _)

theorem parseDataSegmentHeader_suffix : ConsumesPrefix parseDataSegmentHeader := by
  intro i a r h
  unfold parseDataSegmentHeader at h
  obtain ⟨⟨fl, r1⟩, h1, h2⟩ := Option.bind_eq_some.mp h
  obtain ⟨⟨mi, r2⟩, h3, h4⟩ := Option.bind_eq_some.mp h2
  obtain ⟨⟨off, r3⟩, h5, h6⟩ := Option.bind_eq_some.mp h4
  obtain ⟨-, h7⟩ := some_mk_inv h6
  subst h7
  exact ((condP_suffix parseDataInitExpr_suffix r2 off r3 h5).trans
    (condP_suffix leb128_u32_suffix r1 mi r2 h3)).trans (leb128_u32_suffix i fl r1 h1)

theorem parseDataSectionItem_suffix : ConsumesPrefix parseDataSectionItem := by
  intro i a r h
  unfold parseDataSectionItem at h
  obtain ⟨⟨hd, r1⟩, h1, h2⟩ := Option.bind_eq_some.mp h
  obtain ⟨⟨sz, r2⟩, h3, h4⟩ := Option.bind_eq_some.mp h2
  obtain ⟨⟨bs, r3⟩, h5, h6⟩ := Option.bind_eq_some.mp h4
  obtain ⟨-, h7⟩ := some_mk_inv h6
  subst h7
  exact ((takeBytes_suffix sz r2 bs r3 h5).trans
    (leb128_u32_suffix r1 sz r2 h3)).trans (parseDataSegmentHeader_suffix i hd r1 h1)

theorem resolveBody_spec {α : Type} {p : List Nat → Option (α × List Nat)}
    (hp : ConsumesPrefix p) {n : Nat} {body : List Nat}
    {rl : List Nat × Option (List α)}
    (h : resolveBody p n body = some rl) :
    (body = [] → rl.2 = none ∧ rl.1 = body) ∧
    (body ≠ [] → (rl.2).map List.length = some n ∧ rl.1 <:+ body) := by
  unfold resolveBody at h
  by_cases he : body = []
  · rw [if_pos he] at h
    cases Option.some.inj h
    exact ⟨fun _ => ⟨rfl, rfl⟩, fun hne => absurd he hne⟩
  · rw [if_neg he] at h
    obtain ⟨⟨l, rest⟩, hc, hmap⟩ := Option.map_eq_some'.mp h
    cases hmap
    refine ⟨fun heq => absurd heq he, fun _ => ⟨?_, countP_suffix hp n body l rest hc⟩⟩
    simp [countP_length hc]

theorem dropWhile_head_false (p : Nat → Bool) (l : List Nat) :
    l.dropWhile p = [] ∨
    ∃ b t, l.dropWhile p = b :: t ∧ p b = false := by
  induction l with
  | nil => left; rfl
  | cons x xs ih =>
    by_cases hx : p x = true
    · rw [List.dropWhile_cons, if_pos hx]
      exact ih
    · rw [List.dropWhile_cons, if_neg hx]
      exact Or.inr ⟨x, xs, rfl, by simpa using hx⟩

theorem manyTillSents_sentinel :
    ∀ (fuel : Nat) (sents i : List Nat) (ls : List AwwasmInstruction)
      (s : Nat) (r : List Nat),
      manyTillSents sents fuel i = some ((ls, s), r) → s ∈ sents := by
  intro fuel
  induction fuel with
  | zero => intro sents i ls s r h; simp [manyTillSents] at h
  | succ fuel ih =>
    intro sents i ls s r h
    cases i with
    | nil => simp [manyTillSents] at h
    | cons b t =>
      unfold manyTillSents at h
      by_cases hc : sents.contains b
      · rw [if_pos hc] at h
        obtain ⟨h1, -⟩ := some_mk_inv h
        have hb : b = s := by simpa using congrArg Prod.snd h1
        subst hb
        simpa using hc
      · rw [if_neg hc] at h
        obtain ⟨⟨ins, r1⟩, -, h2⟩ := Option.bind_eq_some.mp h
        obtain ⟨⟨⟨l2, s2⟩, r2⟩, h3, h4⟩ := Option.bind_eq_some.mp h2
        obtain ⟨h5, -⟩ := some_mk_inv h4
        have hs : s2 = s := by simpa using congrArg Prod.snd h5
        subst hs
        exact ih sents r1 l2 s2 r2 h3

/-- C1 counterexample: on the section byte stream [0x01, 0x00, 0x80, 0x01]
(kind Type, declared length 0, entry-count varint 0x80 0x01 = 128 occupying 2
bytes) framing succeeds with the body length saturated to zero instead of
raising any error, and the declared length 0 differs from the 2 bytes the
entry-count varint occupies plus the body length 0. -/
theorem framing_saturation_counterexample :
    parseSection [1, 0, 128, 1] =
      some ({ section_header := { section_type := .typeS, section_size := 0 },
              entry_count := 128, section_body := [] }, []) ∧
    (0 : Nat) ≠ leb128_len_u32 128 + ([] : List Nat).length :=
  ⟨rfl, by decide⟩

/-- C1 (amended): for every successfully framed section, the opaque body's
length equals the declared byte-length minus the minimal LEB128 length of the
decoded entry count, saturating to zero (framing succeeds, with no error
surfaced, even when the entry-count varint needs more bytes than declared);
whenever the entry-count varint length fits within the declared length, the
declared length splits exactly into entry-count-varint length plus body
length. -/
theorem framed_section_length_accounting
    (i rest : List Nat) (sec : AwwasmSection)
    (h : parseSection i = some (sec, rest)) :
    sec.section_body.length =
      sec.section_header.section_size - leb128_len_u32 sec.entry_count ∧
    (leb128_len_u32 sec.entry_count ≤ sec.section_header.section_size →
      sec.section_header.section_size =
        leb128_len_u32 sec.entry_count + sec.section_body.length) := by
  unfold parseSection at h
  obtain ⟨⟨hd, r1⟩, h1, h2⟩ := Option.bind_eq_some.mp h
  obtain ⟨⟨ec, r2⟩, h3, h4⟩ := Option.bind_eq_some.mp h2
  obtain ⟨⟨body, r3⟩, h5, h6⟩ := Option.bind_eq_some.mp h4
  obtain ⟨h7, -⟩ := some_mk_inv h6
  subst h7
  obtain ⟨hlen, -⟩ := takeBytes_eq_some h5
  dsimp only
  exact ⟨hlen, fun hle => by omega⟩

theorem framed_section_length_accounting_witness :
    parseSection [1, 4, 1, 96, 0, 0] =
      some ({ section_header := { section_type := .typeS, section_size := 4 },
              entry_count := 1, section_body := [96, 0, 0] }, []) ∧
    (([96, 0, 0] : List Nat).length = 4 - leb128_len_u32 1 ∧
      (leb128_len_u32 1 ≤ 4 →
        (4 : Nat) = leb128_len_u32 1 + ([96, 0, 0] : List Nat).length)) :=
  ⟨rfl, framed_section_length_accounting [1, 4, 1, 96, 0, 0] []
    { section_header := { section_type := .typeS, section_size := 4 },
      entry_count := 1, section_body := [96, 0, 0] } rfl⟩

/-- C2 counterexample: a framed Function section with entry count 1 and body
[0x00, 0x00] resolves successfully to one entry while a leftover byte remains
in the body; the leftover is retained in section_body, not surfaced as an
error. -/
theorem section_resolve_leftover_counterexample :
    AwwasmSection.resolve
        { section_header := { section_type := .functionS, section_size := 3 },
          entry_count := 1, section_body := [0, 0] } =
      some ({ section_header := { section_type := .functionS, section_size := 3 },
              entry_count := 1, section_body := [0] },
            .functionItems (some [{ type_item_idx := 0 }])) ∧
    ([0] : List Nat) ≠ [] :=
  ⟨rfl, by decide⟩

/-- C2 (amended): when resolution of a framed section succeeds it returns
exactly entry_count typed items if the opaque body is non-empty (and no item
list at all — None — if the body is empty, regardless of entry_count); bytes
left over after the entries are retained as the new section body, a suffix of
the old one, and do not make resolution fail. -/
theorem section_resolve_entry_count
    (s s' : AwwasmSection) (it : SectionItem)
    (h : s.resolve = some (s', it)) :
    s'.section_header = s.section_header ∧ s'.entry_count = s.entry_count ∧
    (s.section_body = [] → it.entryLen = none ∧ s'.section_body = s.section_body) ∧
    (s.section_body ≠ [] →
      it.entryLen = some s.entry_count ∧ s'.section_body <:+ s.section_body) := by
  unfold AwwasmSection.resolve at h
  cases hty : s.section_header.section_type
  case typeS =>
    rw [hty] at h
    obtain ⟨⟨rest, l⟩, hrb, hmap⟩ := Option.map_eq_some'.mp h
    cases hmap
    obtain ⟨hemp, hne⟩ := resolveBody_spec parseTypeSectionItem_suffix hrb
    refine ⟨rfl, rfl, fun he => ?_, fun hne2 => ?_⟩
    · obtain ⟨h1, h2⟩ := hemp he
      dsimp only at h1 h2
      exact ⟨by simp [SectionItem.entryLen, h1], by simpa using h2⟩
    · obtain ⟨h1, h2⟩ := hne hne2
      dsimp only at h1 h2
      exact ⟨by simpa [SectionItem.entryLen] using h1, h2⟩
  case importS =>
    rw [hty] at h
    obtain ⟨⟨rest, l⟩, hrb, hmap⟩ := Option.map_eq_some'.mp h
    cases hmap
    obtain ⟨hemp, hne⟩ := resolveBody_spec parseImportSectionItem_suffix hrb
    refine ⟨rfl, rfl, fun he => ?_, fun hne2 => ?_⟩
    · obtain ⟨h1, h2⟩ := hemp he
      dsimp only at h1 h2
      exact ⟨by simp [SectionItem.entryLen, h1], by simpa using h2⟩
    · obtain ⟨h1, h2⟩ := hne hne2
      dsimp only at h1 h2
      exact ⟨by simpa [SectionItem.entryLen] using h1, h2⟩
  case functionS =>
    rw [hty] at h
    obtain ⟨⟨rest, l⟩, hrb, hmap⟩ := Option.map_eq_some'.mp h
    cases hmap
    obtain ⟨hemp, hne⟩ := resolveBody_spec parseFuncSectionItem_suffix hrb
    refine ⟨rfl, rfl, fun he => ?_, fun hne2 => ?_⟩
    · obtain ⟨h1, h2⟩ := hemp he
      dsimp only at h1 h2
      exact ⟨by simp [SectionItem.entryLen, h1], by simpa using h2⟩
    · obtain ⟨h1, h2⟩ := hne hne2
      dsimp only at h1 h2
      exact ⟨by simpa [SectionItem.entryLen] using h1, h2⟩
  case codeS =>
    rw [hty] at h
    obtain ⟨⟨rest, l⟩, hrb, hmap⟩ := Option.map_eq_some'.mp h
    cases hmap
    obtain ⟨hemp, hne⟩ := resolveBody_spec parseCodeSectionItem_suffix hrb
    refine ⟨rfl, rfl, fun he => ?_, fun hne2 => ?_⟩
    · obtain ⟨h1, h2⟩ := hemp he
      dsimp only at h1 h2
      exact ⟨by simp [SectionItem.entryLen, h1], by simpa using h2⟩
    · obtain ⟨h1, h2⟩ := hne hne2
      dsimp only at h1 h2
      exact ⟨by simpa [SectionItem.entryLen] using h1, h2⟩
  case memoryS =>
    rw [hty] at h
    obtain ⟨⟨rest, l⟩, hrb, hmap⟩ := Option.map_eq_some'.mp h
    cases hmap
    obtain ⟨hemp, hne⟩ := resolveBody_spec parseMemorySectionItem_suffix hrb
    refine ⟨rfl, rfl, fun he => ?_, fun hne2 => ?_⟩
    · obtain ⟨h1, h2⟩ := hemp he
      dsimp only at h1 h2
      exact ⟨by simp [SectionItem.entryLen, h1], by simpa using h2⟩
    · obtain ⟨h1, h2⟩ := hne hne2
      dsimp only at h1 h2
      exact ⟨by simpa [SectionItem.entryLen] using h1, h2⟩
  case exportS =>
    rw [hty] at h
    obtain ⟨⟨rest, l⟩, hrb, hmap⟩ := Option.map_eq_some'.mp h
    cases hmap
    obtain ⟨hemp, hne⟩ := resolveBody_spec parseExportSectionItem_suffix hrb
    refine ⟨rfl, rfl, fun he => ?_, fun hne2 => ?_⟩
    · obtain ⟨h1, h2⟩ := hemp he
      dsimp only at h1 h2
      exact ⟨by simp [SectionItem.entryLen, h1], by simpa using h2⟩
    · obtain ⟨h1, h2⟩ := hne hne2
      dsimp only at h1 h2
      exact ⟨by simpa [SectionItem.entryLen] using h1, h2⟩
  case dataS =>
    rw [hty] at h
    obtain ⟨⟨rest, l⟩, hrb, hmap⟩ := Option.map_eq_some'.mp h
    cases hmap
    obtain ⟨hemp, hne⟩ := resolveBody_spec parseDataSectionItem_suffix hrb
    refine ⟨rfl, rfl, fun he => ?_, fun hne2 => ?_⟩
    · obtain ⟨h1, h2⟩ := hemp he
      dsimp only at h1 h2
      exact ⟨by simp [SectionItem.entryLen, h1], by simpa using h2⟩
    · obtain ⟨h1, h2⟩ := hne hne2
      dsimp only at h1 h2
      exact ⟨by simpa [SectionItem.entryLen] using h1, h2⟩

theorem section_resolve_entry_count_witness :
    AwwasmSection.resolve
        { section_header := { section_type := .memoryS, section_size := 4 },
          entry_count := 1, section_body := [1, 1, 2] } =
      some ({ section_header := { section_type := .memoryS, section_size := 4 },
              entry_count := 1, section_body := [] },
            .memoryItems (some [{ limits := { flags := 1, min := 1, max := some 2 } }])) ∧
    (({ section_type := SectionCode.memoryS, section_size := 4 } : AwwasmSectionHeader) =
        { section_type := SectionCode.memoryS, section_size := 4 } ∧
      (1 : Nat) = 1 ∧
      (([1, 1, 2] : List Nat) = [] →
        (SectionItem.memoryItems
          (some [{ limits := { flags := 1, min := 1, max := some 2 } }])).entryLen = none ∧
        ([] : List Nat) = [1, 1, 2]) ∧
      (([1, 1, 2] : List Nat) ≠ [] →
        (SectionItem.memoryItems
          (some [{ limits := { flags := 1, min := 1, max := some 2 } }])).entryLen = some 1 ∧
        ([] : List Nat) <:+ [1, 1, 2])) :=
  ⟨rfl, section_resolve_entry_count
    { section_header := { section_type := .memoryS, section_size := 4 },
      entry_count := 1, section_body := [1, 1, 2] }
    { section_header := { section_type := .memoryS, section_size := 4 },
      entry_count := 1, section_body := [] }
    (.memoryItems (some [{ limits := { flags := 1, min := 1, max := some 2 } }])) rfl⟩

/-- C10: resolving a code entry whose raw body is empty returns Ok without
attempting a structural decode and unconditionally stores None into
parsed_func, so a second resolve after one that consumed the whole body
erases the previously stored parsed function. -/
theorem code_resolve_empty_overwrites
    (e : AwwasmCodeSectionItem) (h : e.func_body = []) :
    e.resolve = some { e with parsed_func := none } := by
  have hres : condP (e.func_body ≠ []) parseAwwasmFunction e.func_body
      = some (none, e.func_body) := by
    rw [h]
    rfl
  unfold AwwasmCodeSectionItem.resolve
  rw [hres]

theorem code_resolve_empty_overwrites_witness :
    (({ fn_body_size := 0, func_body := [],
        parsed_func := some { fn_rets := [], code := [] } } :
        AwwasmCodeSectionItem).func_body = []) ∧
    AwwasmCodeSectionItem.resolve
        { fn_body_size := 0, func_body := [],
          parsed_func := some { fn_rets := [], code := [] } } =
      some { fn_body_size := 0, func_body := [], parsed_func := none } :=
  ⟨rfl, code_resolve_empty_overwrites
    { fn_body_size := 0, func_body := [],
      parsed_func := some { fn_rets := [], code := [] } } rfl⟩

/-- C3: resolving a code entry with a non-empty raw body decodes the
length-prefixed local declarations, takes as the instruction payload exactly
the bytes before the first terminator byte 0x0b (the payload never contains
the terminator), and mutates the entry in place: parsed_func holds the
structured result and func_body keeps only the unconsumed trailing bytes,
which start with the terminator when they are non-empty. -/
theorem code_resolve_structure
    (e e' : AwwasmCodeSectionItem) (hne : e.func_body ≠ [])
    (h : e.resolve = some e') :
    ∃ f, e'.parsed_func = some f ∧
      e'.fn_body_size = e.fn_body_size ∧
      (∃ locRest, parseLocalsVec e.func_body = some (f.fn_rets, locRest) ∧
        locRest = f.code ++ e'.func_body) ∧
      (∀ b ∈ f.code, b ≠ WASM_FUNC_SECTION_OPCODE_END) ∧
      (e'.func_body = [] ∨
        e'.func_body.head? = some WASM_FUNC_SECTION_OPCODE_END) := by
  unfold AwwasmCodeSectionItem.resolve condP at h
  rw [if_pos (decide_eq_true hne)] at h
  cases hp : parseAwwasmFunction e.func_body with
  | none => rw [hp] at h; simp at h
  | some x =>
    obtain ⟨f0, rest⟩ := x
    rw [hp] at h
    simp only [Option.map_some'] at h
    have he' := Option.some.inj h
    subst he'
    unfold parseAwwasmFunction at hp
    obtain ⟨⟨ls, r1⟩, hl, h2⟩ := Option.bind_eq_some.mp hp
    obtain ⟨hf, hr⟩ := some_mk_inv h2
    subst hf
    subst hr
    refine ⟨{ fn_rets := ls,
              code := r1.takeWhile fun b => b ≠ WASM_FUNC_SECTION_OPCODE_END },
            rfl, rfl, ⟨r1, hl, (List.takeWhile_append_dropWhile ..).symm⟩,
            fun b hb => by simpa using List.mem_takeWhile_imp hb, ?_⟩
    rcases dropWhile_head_false
        (fun b => decide (b ≠ WASM_FUNC_SECTION_OPCODE_END)) r1 with hnil | ⟨b, t, heq, hpb⟩
    · exact Or.inl hnil
    · refine Or.inr ?_
      have hb11 : b = WASM_FUNC_SECTION_OPCODE_END := by simpa using hpb
      rw [heq, hb11]
      rfl

theorem code_resolve_structure_witness :
    (({ fn_body_size := 6, func_body := [2, 1, 127, 2, 126, 11],
        parsed_func := none } : AwwasmCodeSectionItem).func_body ≠ [] ∧
      AwwasmCodeSectionItem.resolve
          { fn_body_size := 6, func_body := [2, 1, 127, 2, 126, 11],
            parsed_func := none } =
        some { fn_body_size := 6, func_body := [11],
               parsed_func := some
                 { fn_rets := [{ type_count := 1, param_type := .i32 },
                               { type_count := 2, param_type := .i64 }],
                   code := [] } }) ∧
    (∃ f, (some
        { fn_rets := [{ type_count := 1, param_type := ParamType.i32 },
                      { type_count := 2, param_type := ParamType.i64 }],
          code := ([] : List Nat) } : Option AwwasmFunction) = some f ∧
      (6 : Nat) = 6 ∧
      (∃ locRest, parseLocalsVec [2, 1, 127, 2, 126, 11] = some (f.fn_rets, locRest) ∧
        locRest = f.code ++ [11]) ∧
      (∀ b ∈ f.code, b ≠ WASM_FUNC_SECTION_OPCODE_END) ∧
      (([11] : List Nat) = [] ∨
        ([11] : List Nat).head? = some WASM_FUNC_SECTION_OPCODE_END)) :=
  ⟨⟨by decide, rfl⟩, code_resolve_structure
    { fn_body_size := 6, func_body := [2, 1, 127, 2, 126, 11], parsed_func := none }
    { fn_body_size := 6, func_body := [11],
      parsed_func := some
        { fn_rets := [{ type_count := 1, param_type := .i32 },
                      { type_count := 2, param_type := .i64 }],
          code := [] } }
    (by decide) rfl⟩

/-- C6 counterexample: the memory-limits decoder accepts the flags value 2
(outside {0, 1}) and succeeds with max absent, instead of failing. -/
theorem memory_flags_outside_counterexample :
    parseMemoryParams [2, 1] = some ({ flags := 2, min := 1, max := none }, []) ∧
    (2 : Nat) ≠ 0 ∧ (2 : Nat) ≠ 1 :=
  ⟨rfl, by decide, by decide⟩

/-- C6 (amended): a decoded memory-limits value has max present exactly when
bit 0 of the flags is set (so flags=0 gives max absent and flags=1 gives max
present and equal to the encoded value); flags values outside {0, 1} are
accepted, the layout being selected by bit 0 alone. -/
theorem memory_limits_flag_bit
    (i rest : List Nat) (p : AwwasmMemoryParams)
    (h : parseMemoryParams i = some (p, rest)) :
    (p.max = none ↔ p.flags &&& 1 = 0) ∧
    ∃ r1 r2, leb128_u32 i = some (p.flags, r1) ∧ leb128_u32 r1 = some (p.min, r2) ∧
      ((p.flags &&& 1 = 0 ∧ p.max = none ∧ rest = r2) ∨
       (p.flags &&& 1 ≠ 0 ∧ ∃ v, leb128_u32 r2 = some (v, rest) ∧ p.max = some v)) := by
  unfold parseMemoryParams at h
  obtain ⟨⟨fl, r1⟩, h1, h2⟩ := Option.bind_eq_some.mp h
  obtain ⟨⟨mn, r2⟩, h3, h4⟩ := Option.bind_eq_some.mp h2
  obtain ⟨⟨mx, r3⟩, h5, h6⟩ := Option.bind_eq_some.mp h4
  obtain ⟨h7, h8⟩ := some_mk_inv h6
  subst h7
  subst h8
  by_cases hf : fl &&& 1 = 0
  · have hd : (decide (fl &&& 1 ≠ 0)) = false := decide_eq_false fun hn => hn hf
    rw [hd] at h5
    unfold condP at h5
    rw [if_neg (by simp)] at h5
    obtain ⟨h9, h10⟩ := some_mk_inv h5
    subst h9
    subst h10
    exact ⟨iff_of_true rfl hf, r1, r2, h1, h3, Or.inl ⟨hf, rfl, rfl⟩⟩
  · have hd : (decide (fl &&& 1 ≠ 0)) = true := decide_eq_true hf
    rw [hd] at h5
    unfold condP at h5
    rw [if_pos rfl] at h5
    obtain ⟨⟨v, rr⟩, hv, hmap⟩ := Option.map_eq_some'.mp h5
    cases hmap
    exact ⟨iff_of_false (by simp) hf, r1, r2, h1, h3, Or.inr ⟨hf, v, hv, rfl⟩⟩

theorem memory_limits_flag_bit_witness :
    parseMemoryParams [1, 1, 2] =
      some ({ flags := 1, min := 1, max := some 2 }, []) ∧
    (((some 2 : Option Nat) = none ↔ (1 : Nat) &&& 1 = 0) ∧
      ∃ r1 r2, leb128_u32 [1, 1, 2] = some (1, r1) ∧ leb128_u32 r1 = some (1, r2) ∧
        (((1 : Nat) &&& 1 = 0 ∧ (some 2 : Option Nat) = none ∧ ([] : List Nat) = r2) ∨
         ((1 : Nat) &&& 1 ≠ 0 ∧
           ∃ v, leb128_u32 r2 = some (v, []) ∧ (some 2 : Option Nat) = some v))) :=
  ⟨rfl, memory_limits_flag_bit [1, 1, 2] [] { flags := 1, min := 1, max := some 2 } rfl⟩

/-- C7 counterexample: an import entry with empty module and item names and
kind byte 0x01 (Table) decodes successfully with both kind-conditioned
payload fields absent — no UnsupportedPayload-style failure occurs. -/
theorem import_table_decode_succeeds :
    parseImportSectionItem [0, 0, 1] =
      some ({ module := { len := 0, bytes := [] },
              name := { len := 0, bytes := [] },
              kind := .table, func_type_idx := none, mem := none }, []) := rfl

/-- C7 (amended): an import entry whose kind tag is Table (0x01) or Global
(0x03) decodes successfully with both kind-conditioned payload fields None
and with no payload bytes consumed: the remaining input is exactly what
followed the one-byte kind tag. -/
theorem import_table_global_no_payload
    (i rest : List Nat) (item : AwwasmImportSectionItem)
    (h : parseImportSectionItem i = some (item, rest))
    (hk : item.kind = .table ∨ item.kind = .global) :
    item.func_type_idx = none ∧ item.mem = none ∧
    ∃ m n r1 b, parseName i = some (m, r1) ∧ parseName r1 = some (n, b :: rest) ∧
      AwwasmImportKind.ofByte b = some item.kind := by
  unfold parseImportSectionItem at h
  obtain ⟨⟨m, r1⟩, h1, h2⟩ := Option.bind_eq_some.mp h
  obtain ⟨⟨n, r2⟩, h3, h4⟩ := Option.bind_eq_some.mp h2
  obtain ⟨⟨kb, r3⟩, h5, h6⟩ := Option.bind_eq_some.mp h4
  obtain ⟨k, hk0, h7⟩ := Option.bind_eq_some.mp h6
  obtain ⟨⟨fti, r4⟩, h8, h9⟩ := Option.bind_eq_some.mp h7
  obtain ⟨⟨mem, r5⟩, h10, h11⟩ := Option.bind_eq_some.mp h9
  obtain ⟨h12, h13⟩ := some_mk_inv h11
  subst h12
  subst h13
  dsimp only at hk ⊢
  have hkf : (decide (k = AwwasmImportKind.function)) = false := by
    rcases hk with hk | hk <;> subst hk <;> decide
  have hkm : (decide (k = AwwasmImportKind.memory)) = false := by
    rcases hk with hk | hk <;> subst hk <;> decide
  rw [hkf] at h8
  unfold condP at h8
  rw [if_neg (by simp)] at h8
  obtain ⟨h8a, h8b⟩ := some_mk_inv h8
  subst h8a
  subst h8b
  rw [hkm] at h10
  unfold condP at h10
  rw [if_neg (by simp)] at h10
  obtain ⟨h10a, h10b⟩ := some_mk_inv h10
  subst h10a
  subst h10b
  exact ⟨rfl, rfl, m, n, r1, kb, h1, parseByte_eq_some h5 ▸ h3, hk0⟩

theorem import_table_global_no_payload_witness :
    (parseImportSectionItem [0, 0, 3] =
        some ({ module := { len := 0, bytes := [] },
                name := { len := 0, bytes := [] },
                kind := .global, func_type_idx := none, mem := none }, []) ∧
      (AwwasmImportKind.global = AwwasmImportKind.table ∨
        AwwasmImportKind.global = AwwasmImportKind.global)) ∧
    ((none : Option Nat) = none ∧ (none : Option AwwasmMemoryParams) = none ∧
      ∃ m n r1 b, parseName [0, 0, 3] = some (m, r1) ∧
        parseName r1 = some (n, b :: ([] : List Nat)) ∧
        AwwasmImportKind.ofByte b = some AwwasmImportKind.global) :=
  ⟨⟨rfl, Or.inr rfl⟩, import_table_global_no_payload [0, 0, 3] []
    { module := { len := 0, bytes := [] }, name := { len := 0, bytes := [] },
      kind := .global, func_type_idx := none, mem := none } rfl (Or.inr rfl)⟩

/-- C4: when decoding an If instruction, the then-region's terminating
sentinel is either the else marker 0x05 or the end byte 0x0b; the decoded
instruction's else_body is populated exactly when the sentinel was the else
marker, and is None when the sentinel was the end byte. -/
theorem if_decode_else_iff_sentinel
    (fuel : Nat) (r rest : List Nat) (bt : BlockValueType)
    (tb : List AwwasmInstruction) (s : Nat) (eb : Option (List AwwasmInstruction))
    (h : decodeInstr (fuel + 1) (4 :: r) = some (.ifI bt tb s eb, rest)) :
    (s = WASM_FUNC_SECTION_OPCODE_THEN ∧ ∃ eBody, eb = some eBody) ∨
    (s = WASM_FUNC_SECTION_OPCODE_END ∧ eb = none) := by
  have hstep : decodeInstr (fuel + 1) (4 :: r) =
      (do
        let (bt0, r1) ← parseBlockValueType r
        let (thenEnd, r2) ←
          manyTillSents [WASM_FUNC_SECTION_OPCODE_END, WASM_FUNC_SECTION_OPCODE_THEN] fuel r1
        if thenEnd.2 = WASM_FUNC_SECTION_OPCODE_THEN then do
          let (elseEnd, r3) ← manyTillSents [WASM_FUNC_SECTION_OPCODE_END] fuel r2
          some (.ifI bt0 thenEnd.1 thenEnd.2 (some elseEnd.1), r3)
        else
          some (.ifI bt0 thenEnd.1 thenEnd.2 none, r2)) := rfl
  rw [hstep] at h
  obtain ⟨⟨bt0, r1⟩, hbt, h2⟩ := Option.bind_eq_some.mp h
  obtain ⟨⟨⟨tl, ts⟩, r2⟩, hmt, h3⟩ := Option.bind_eq_some.mp h2
  have hmem := manyTillSents_sentinel fuel
    [WASM_FUNC_SECTION_OPCODE_END, WASM_FUNC_SECTION_OPCODE_THEN] r1 tl ts r2 hmt
  dsimp only at h3
  by_cases hs : ts = WASM_FUNC_SECTION_OPCODE_THEN
  · rw [if_pos hs] at h3
    obtain ⟨⟨⟨el, es⟩, r3⟩, hmt2, h4⟩ := Option.bind_eq_some.mp h3
    cases Option.some.inj h4
    exact Or.inl ⟨hs, el, rfl⟩
  · rw [if_neg hs] at h3
    cases Option.some.inj h3
    refine Or.inr ⟨?_, rfl⟩
    have hor : s = WASM_FUNC_SECTION_OPCODE_END ∨ s = WASM_FUNC_SECTION_OPCODE_THEN := by
      simpa using hmem
    rcases hor with h11 | h05
    · exact h11
    · exact absurd h05 hs

theorem if_decode_else_iff_sentinel_witness :
    decodeInstr 2 (4 :: [64, 5, 11]) =
      some (.ifI .void [] 5 (some []), []) ∧
    ((5 = WASM_FUNC_SECTION_OPCODE_THEN ∧
        ∃ eBody, (some ([] : List AwwasmInstruction)) = some eBody) ∨
      (5 = WASM_FUNC_SECTION_OPCODE_END ∧
        (some ([] : List AwwasmInstruction) : Option (List AwwasmInstruction)) = none)) :=
  ⟨rfl, if_decode_else_iff_sentinel 1 [64, 5, 11] [] .void [] 5 (some []) rfl⟩

/-- C5: the claimed varint decoding of branch-table targets is false of the
program.  The targets field of BrTableOperands carries no Parse attribute,
so each table target is read by u32's default little-endian parser as 4
fixed bytes.  On the operand bytes [0x01, 0x01, 0x02, 0x03, 0x04, 0x00]
(after the BrTable opcode) the decode succeeds with the single 4-byte
little-endian target 0x04030201 = 67305985 and default 0, consuming all six
bytes — a region holding six LEB128 terminator bytes, not the
target_count + 2 = 3 the claimed one-varint-per-target layout would consume
(a varint reading would take target 1 and default 2 from three bytes). -/
theorem br_table_fixed_width_targets :
    parseBrTableOperands [1, 1, 2, 3, 4, 0] =
      some ({ target_count := 1, targets := [67305985], default := 0 }, []) ∧
    countLow [1, 1, 2, 3, 4, 0] ≠ 1 + 2 :=
  ⟨rfl, by decide⟩

/-- C8: the lazy instruction iterator yields nothing on an exhausted buffer;
on a non-empty buffer it yields the decoded instruction and advances to the
decoder's remaining bytes, and on a decode failure it yields the single
error result with an emptied buffer, after which (the buffer now being
empty) every later pull yields nothing — it never retries or
resynchronizes. -/
theorem instruction_iterator_spec (s : List Nat) (h : s ≠ []) :
    (∀ ins rest, decodeInstr (s.length + 1) s = some (ins, rest) →
      instrIterNext s = some (.ok ins, rest)) ∧
    (decodeInstr (s.length + 1) s = none → instrIterNext s = some (.err, [])) ∧
    instrIterNext [] = none := by
  refine ⟨?_, ?_, rfl⟩
  · intro ins rest hd
    unfold instrIterNext
    rw [if_neg h, hd]
  · intro hd
    unfold instrIterNext
    rw [if_neg h, hd]

theorem instruction_iterator_spec_witness :
    (([255] : List Nat) ≠ []) ∧
    ((∀ ins rest, decodeInstr (([255] : List Nat).length + 1) [255] = some (ins, rest) →
        instrIterNext [255] = some (.ok ins, rest)) ∧
      (decodeInstr (([255] : List Nat).length + 1) [255] = none →
        instrIterNext [255] = some (.err, [])) ∧
      instrIterNext [] = none) :=
  ⟨by decide, instruction_iterator_spec [255] (by decide)⟩

/-- C9: a module whose single Function section has a truncated entry (body
[0x80], an unterminated varint) fails that section's resolve; instead of
returning the failure as an error result, resolve_all_sections hits the
items.unwrap() call and panics.  The module shown is exactly what the
top-level decode produces for the byte stream
[0x00, 'a', 's', 'm', 1, 0, 0, 0, 0x03, 0x02, 0x01, 0x80]. -/
theorem resolve_all_sections_panics_on_failed_section :
    parseModule [0, 97, 115, 109, 1, 0, 0, 0, 3, 2, 1, 128] =
      some ({ preamble := { magic := WASM_MAGIC_NUMBER, version := 1 },
              sections := some
                [{ section_header := { section_type := .functionS, section_size := 2 },
                   entry_count := 1, section_body := [128] }],
              types := none, imports := none, exports := none, funcs := none,
              code := none, memories := none, data := none }, []) ∧
    AwwasmSection.resolve
        { section_header := { section_type := .functionS, section_size := 2 },
          entry_count := 1, section_body := [128] } = none ∧
    AwwasmModule.resolve_all_sections
        { preamble := { magic := WASM_MAGIC_NUMBER, version := 1 },
          sections := some
            [{ section_header := { section_type := .functionS, section_size := 2 },
               entry_count := 1, section_body := [128] }],
          types := none, imports := none, exports := none, funcs := none,
          code := none, memories := none, data := none } = .panicked :=
  ⟨rfl, rfl, rfl⟩

end Awwasm
